import Mathlib

/-!
A verification development for `screeny.py`, a command-line tool that drives a
headless browser to capture full-page screenshots of one or more URLs.

The Python source is shallowly embedded: pure string and list manipulation is
translated into executable Lean functions; the filesystem, the CLI argument
vector, and the browser-automation engine are abstracted as explicit inputs
(a partial map from paths to file contents, records of parsed flag values, and
per-step outcome oracles).  Exceptions become `Except`, Python's `dict` becomes
an insertion-ordered association list with Python's update-in-place semantics,
and Python truthiness tests are made explicit where the code relies on them.
-/

namespace Screeny

/-! ## String primitives

Python `str.strip`, `str.startswith`, `str.endswith`, `in` (substring test)
and `str.replace`, modelled over the character list of a `String`. -/

/-- Whitespace as used by Python `str.strip()` (the common ASCII cases). -/
def isPyWs (c : Char) : Bool :=
  c = ' ' || c = '\t' || c = '\n' || c = '\r' || c = '\x0b' || c = '\x0c'

/-- Strip leading and trailing whitespace from a character list. -/
def stripList (l : List Char) : List Char :=
  ((l.dropWhile isPyWs).reverse.dropWhile isPyWs).reverse

/-- Python `s.strip()`. -/
def pyStrip (s : String) : String :=
  ⟨stripList s.data⟩

/-- Python `s.startswith(('http://', 'https://'))` as used by the URL loader. -/
def isHttpUrl (s : String) : Bool :=
  "http://".data.isPrefixOf s.data || "https://".data.isPrefixOf s.data

/-- Python `s.endswith(suffix)`. -/
def pyEndsWith (s suffix : String) : Bool :=
  suffix.data.isSuffixOf s.data

/-- Is `sub` a contiguous sublist of `s`? -/
def isSubList : List Char → List Char → Bool
  | sub, [] => sub.isEmpty
  | sub, c :: cs => sub.isPrefixOf (c :: cs) || isSubList sub cs

/-- Python `sub in s` (substring containment). -/
def containsSub (s sub : String) : Bool :=
  isSubList sub.data s.data

/-- Python `s.replace(pat, rep)`: replace all non-overlapping occurrences of
`pat`, scanning left to right.  (The source never calls it with an empty
pattern; the guard returns the input unchanged in that degenerate case.) -/
def pyReplaceList (s pat rep : List Char) : List Char :=
  if hp : pat = [] then s
  else
    match s with
    | [] => []
    | c :: cs =>
      if pat.isPrefixOf (c :: cs) then
        rep ++ pyReplaceList ((c :: cs).drop pat.length) pat rep
      else
        c :: pyReplaceList cs pat rep
termination_by s.length
decreasing_by
  · simp only [List.length_drop, List.length_cons]
    have hlen : 1 ≤ pat.length := by
      cases pat with
      | nil => exact absurd rfl hp
      | cons p ps => simp
    omega
  · simp

/-- Python `s.replace(pat, rep)` on `String`. -/
def pyReplace (s pat rep : String) : String :=
  ⟨pyReplaceList s.data pat.data rep.data⟩

/-! ## URL loader (`load_urls_from_file`, screeny.py lines 265-288)

The filesystem is an explicit partial map from paths to file contents.  The
source dispatches on the path suffix `.csv` and hands the open file either to
a line iterator or to `csv.reader`; the embedding abstracts that dispatch (and
the CSV quoting grammar) into the `FileData` view the filesystem yields: a
text file is its list of lines, a CSV file its list of rows. -/

/-- Contents of a file as the loader views it. -/
inductive FileData where
  /-- A plain-text file, one entry per line (newlines already split off). -/
  | text (lines : List String) : FileData
  /-- A CSV file, as the list of parsed rows. -/
  | csvRows (rows : List (List String)) : FileData
deriving DecidableEq

/-- Errors the URL-loading path of `main` can see. -/
inductive LoadError where
  /-- The `FileNotFoundError` raised at screeny.py line 271. -/
  | fileNotFound : LoadError
  /-- The `TypeError` from `Path(None)` when no file argument is present. -/
  | typeError : LoadError
deriving DecidableEq

/-- The text-file branch (screeny.py lines 281-286): strip each line, keep it
iff non-blank and starting with `http://` or `https://`. -/
def textUrls : List String → List String
  | [] => []
  | line :: rest =>
    let url := pyStrip line
    if url ≠ "" && isHttpUrl url then url :: textUrls rest
    else textUrls rest

/-- The CSV branch (screeny.py lines 274-280): for each row that is non-empty
and whose column 0 strips to something non-blank, keep the stripped column 0
iff it starts with `http://` or `https://`. -/
def csvUrls : List (List String) → List String
  | [] => []
  | row :: rest =>
    match row with
    | [] => csvUrls rest
    | cell0 :: _ =>
      if pyStrip cell0 ≠ "" then
        let url := pyStrip cell0
        if isHttpUrl url then url :: csvUrls rest else csvUrls rest
      else csvUrls rest

/-- The function `load_urls_from_file` (screeny.py lines 265-288) over the abstract
filesystem `fs`.  A missing path raises `FileNotFoundError`. -/
def load_urls_from_file (fs : String → Option FileData) (path : String) :
    Except LoadError (List String) :=
  match fs path with
  | none => .error .fileNotFound
  | some (.text lines) => .ok (textUrls lines)
  | some (.csvRows rows) => .ok (csvUrls rows)

/-! ## Python `dict` as an insertion-ordered association list

`results[url] = success` updates the value in place when the key exists
(keeping its position) and appends a new pair at the end otherwise. -/

/-- Assignment `d[k] = v` with Python `dict` semantics. -/
def dictInsert : List (String × Bool) → String → Bool → List (String × Bool)
  | [], k, v => [(k, v)]
  | (k', v') :: d, k, v =>
    if k' = k then (k', v) :: d else (k', v') :: dictInsert d k v

/-- Lookup `d[k]` (as an `Option`). -/
def dictLookup (d : List (String × Bool)) (k : String) : Option Bool :=
  (d.find? (fun p => p.1 == k)).map Prod.snd

/-- Python `enumerate(urls, 1)`: pair each element with its 1-based index. -/
def enumFrom : Nat → List String → List (Nat × String)
  | _, [] => []
  | i, u :: us => (i, u) :: enumFrom (i + 1) us

/-! ## Batch capture (`batch_capture`, screeny.py lines 219-262)

The per-call outcome of `capture_screenshot` is an oracle
`cap : Nat → String → Bool` (1-based iteration index, URL): network
nondeterminism means two captures of the same URL may differ. -/

/-- The `results` dict built by `batch_capture`'s loop (lines 232-262):
iterate the URL list in order and store each capture outcome under its URL. -/
def batchResults (cap : Nat → String → Bool) (urls : List String) :
    List (String × Bool) :=
  (enumFrom 1 urls).foldl (fun d p => dictInsert d p.2 (cap p.1 p.2)) []

/-- The count `successful = sum(results.values())` (screeny.py line 402). -/
def summarySuccessful (results : List (String × Bool)) : Nat :=
  (results.map Prod.snd).count true

/-- The count `total = len(results)` (screeny.py line 403). -/
def summaryTotal (results : List (String × Bool)) : Nat :=
  results.length

/-- The failed-URL list printed at screeny.py lines 410-413: keys of `results`
whose value is `False`, in dict order. -/
def failedUrls (results : List (String × Bool)) : List String :=
  (results.filter (fun p => !p.2)).map Prod.fst

/-! ## Configuration (`ScreenshotConfig`, screeny.py lines 27-43) and CLI
argument parsing (`main`, lines 293-359)

Parsed argument values are modelled as a record; for the two `store_true`
flags with `default=True` the record stores the raw fact of whether the flag
appeared on the command line, and `parseStoreTrue` reproduces what `argparse`
yields for a `store_true` action with the given default. -/

/-- The `ScreenshotConfig` record (screeny.py lines 27-43), with the numeric
fields over `Int`/`Rat` as exact stand-ins for Python's int/float. -/
structure ScreenshotConfig where
  viewport_width : Int := 1920
  viewport_height : Int := 1080
  device_scale_factor : Rat := 2
  full_page : Bool := true
  wait_timeout : Int := 30000
  wait_for_selector : Option String := none
  wait_for_load_state : String := "networkidle"
  disable_animations : Bool := true
  block_ads : Bool := true
  output_format : String := "png"
  output_quality : Option Int := none
  mobile : Bool := false
  user_agent : Option String := none
deriving DecidableEq

/-- What `argparse` stores for a `store_true` action: the constant `True`
when the flag is present, the declared default otherwise. -/
def parseStoreTrue (dflt : Bool) (present : Bool) : Bool :=
  if present then true else dflt

/-- The raw command line, as far as the embedding needs it: the value of each
argument after type coercion, and presence bits for the `store_true` flags. -/
structure Cli where
  url : Option String := none
  file : Option String := none
  output : String := "./screenshots"
  format : String := "png"
  quality : Int := 90
  width : Int := 1920
  height : Int := 1080
  scale : Rat := 2
  mobilePresent : Bool := false
  wait_timeout : Int := 30000
  wait_selector : Option String := none
  wait_state : String := "networkidle"
  noAnimationsPresent : Bool := false
  noAdsPresent : Bool := false
deriving DecidableEq

/-- Build the configuration from parsed arguments (screeny.py lines 347-359).
`output_quality` starts as the class default `None` and is assigned from
`--quality` only when the format is `jpeg`. -/
def buildConfig (args : Cli) : ScreenshotConfig :=
  { viewport_width := args.width
    viewport_height := args.height
    device_scale_factor := args.scale
    mobile := parseStoreTrue false args.mobilePresent
    wait_timeout := args.wait_timeout
    wait_for_selector := args.wait_selector
    wait_for_load_state := args.wait_state
    disable_animations := parseStoreTrue true args.noAnimationsPresent
    block_ads := parseStoreTrue true args.noAdsPresent
    output_format := args.format
    output_quality :=
      if args.format = "jpeg" then some args.quality else none }

/-! ## Ad blocking (`_block_ads_handler`, screeny.py lines 193-217) -/

/-- What the route handler does with a request. -/
inductive RouteAction where
  /-- Call `route.abort()`. -/
  | abort : RouteAction
  /-- Call `route.continue_()`. -/
  | cont : RouteAction
deriving DecidableEq

/-- The fixed deny-list (screeny.py lines 199-203). -/
def blockedDomains : List String :=
  ["googletagmanager.com", "google-analytics.com", "doubleclick.net",
   "googlesyndication.com", "facebook.com/tr", "hotjar.com",
   "crazyegg.com", "mouseflow.com", "clarity.ms"]

/-- Python `any(domain in request.url for domain in blocked_domains)`. -/
def urlIsBlocked (url : String) : Bool :=
  blockedDomains.any (fun d => containsSub url d)

/-- The handler `_block_ads_handler` (screeny.py lines 193-217), as a function from the
request's URL and resource type to the action taken on the route. -/
def block_ads_handler (url resourceType : String) : RouteAction :=
  if urlIsBlocked url then .abort
  else if ["document", "stylesheet", "image", "font"].contains resourceType then
    .cont
  else
    if urlIsBlocked url then .abort else .cont

/-- The policy as the spec states it: abort iff the URL matches the
deny-list, continue otherwise, independent of resource type.
(Spec-side definition, for comparison with `block_ads_handler`.) -/
def specAdPolicy (url resourceType : String) : RouteAction :=
  if urlIsBlocked url then .abort else .cont

/-! ## Capture orchestrator (`capture_screenshot`, screeny.py lines 83-191)

Each call into the browser engine or the filesystem may raise; an environment
assigns each step its outcome.  The whole body sits in one `try`, and the
`except` clause reduces any error to the boolean `False`. -/

/-- The fallible steps of `capture_screenshot`, in source order. -/
inductive Step where
  | newPage | routeInstall | addInitScript | goto | waitSelector
  | waitTimeout2000 | evalScrollLoop | waitNetworkIdle | evalScrollTop
  | waitTimeout500 | screenshot | closePage | getFileSize
deriving DecidableEq

/-- An error raised by a browser/filesystem step (carrying its message). -/
structure CaptureError where
  message : String
deriving DecidableEq

/-- The `try` body of `capture_screenshot` (screeny.py lines 94-187): the
sequence of awaited steps, with the conditional steps guarded exactly as in
the source.  Raising at any step aborts the rest of the body. -/
def captureBody (config : ScreenshotConfig)
    (env : Step → Except CaptureError Unit) : Except CaptureError Unit := do
  env .newPage
  if config.block_ads then env .routeInstall
  if config.disable_animations then env .addInitScript
  env .goto
  if config.wait_for_selector.isSome then env .waitSelector
  env .waitTimeout2000
  env .evalScrollLoop
  env .waitNetworkIdle
  env .evalScrollTop
  env .waitTimeout500
  env .screenshot
  env .closePage
  env .getFileSize

/-- The method `capture_screenshot` (screeny.py lines 83-191): run the body; the broad
`except Exception` turns any raised error into the return value `False`. -/
def capture_screenshot (config : ScreenshotConfig)
    (env : Step → Except CaptureError Unit) : Bool :=
  match captureBody config env with
  | .ok _ => true
  | .error _ => false

/-- The keyword options passed to `page.screenshot` (screeny.py lines
169-177): `quality` is added only when the format is `"jpeg"` AND the
configured quality is truthy (`None` and `0` are both falsy in Python). -/
def screenshotQualityOption (config : ScreenshotConfig) : Option Int :=
  if config.output_format = "jpeg" &&
      (match config.output_quality with
       | none => false
       | some q => q != 0) then
    config.output_quality
  else none

/-! ## Filename templating (batch_capture lines 238-252, main lines 383-388) -/

/-- Python `parsed_url.netloc.replace('www.', '').replace('.', '_')`. -/
def sanitizeDomain (netloc : String) : String :=
  pyReplace (pyReplace netloc "www." "") "." "_"

/-- Append `.{format}` unless the name already ends with it
(screeny.py lines 249-250). -/
def ensureExt (filename fmt : String) : String :=
  if !pyEndsWith filename ("." ++ fmt) then filename ++ "." ++ fmt
  else filename

/-- The filename from the default template `{domain}_{timestamp}` for a URL
with network location `netloc`, at timestamp `ts`, then extension-fixed for
the configured format. -/
def defaultFilename (netloc ts fmt : String) : String :=
  ensureExt (sanitizeDomain netloc ++ "_" ++ ts) fmt

/-! ## `main` (screeny.py lines 291-418): URL selection and exit code -/

/-- Which URLs `main` works on (screeny.py lines 362-370): `if args.url:` is
a Python truthiness test, so both `--url` absent and `--url ''` fall through
to the file branch, where `Path(None)` raises if no `--file` was given either
(caught by the same `except`, exiting 1). -/
def loadedUrls (cli : Cli) (fs : String → Option FileData) :
    Except LoadError (List String) :=
  match cli.url with
  | some u =>
    if u ≠ "" then .ok [u]
    else
      match cli.file with
      | none => .error .typeError
      | some path => load_urls_from_file fs path
  | none =>
    match cli.file with
    | none => .error .typeError
    | some path => load_urls_from_file fs path

/-- The process exit code of `main` (screeny.py lines 362-418): 1 on a load
error; 1 on an empty URL list; with exactly one URL, 1 iff its capture fails;
with two or more URLs, 0 after the batch regardless of per-URL outcomes. -/
def mainExitCode (cli : Cli) (fs : String → Option FileData)
    (cap : Nat → String → Bool) : Nat :=
  match loadedUrls cli fs with
  | .error _ => 1
  | .ok urls =>
    match urls with
    | [] => 1
    | [u] => if cap 1 u then 0 else 1
    | _ :: _ :: _ =>
      let _ := batchResults cap urls
      0

/-! ## Supporting lemmas -/

theorem isHttpUrl_ne_empty {s : String} (h : isHttpUrl s = true) : s ≠ "" := by
  intro he
  subst he
  exact absurd h (by decide)

theorem textUrls_eq (lines : List String) :
    textUrls lines = (lines.map pyStrip).filter isHttpUrl := by
  induction lines with
  | nil => rfl
  | cons l rest ih =>
    simp only [textUrls, List.map_cons, List.filter_cons]
    cases h : isHttpUrl (pyStrip l) with
    | true =>
      have hne : pyStrip l ≠ "" := isHttpUrl_ne_empty h
      simp [h, hne, ih]
    | false => simp [h, ih]

theorem csvUrls_eq (rows : List (List String)) :
    csvUrls rows = ((rows.filterMap List.head?).map pyStrip).filter isHttpUrl := by
  induction rows with
  | nil => rfl
  | cons row rest ih =>
    cases row with
    | nil => simpa [csvUrls] using ih
    | cons c0 cs =>
      simp only [csvUrls, List.filterMap_cons, List.head?, List.map_cons,
        List.filter_cons]
      cases h : isHttpUrl (pyStrip c0) with
      | true =>
        have hne : pyStrip c0 ≠ "" := isHttpUrl_ne_empty h
        simp [h, hne, ih]
      | false =>
        by_cases hb : pyStrip c0 = ""
        · simp [hb, h, ih]
        · simp [hb, h, ih]

/-! ## C1 -/

/-- C1: `load_urls_from_file` returns exactly the entries that start with
`http://` or `https://` after stripping whitespace, in file order: every line
of a plain-text file, and only column 0 of each non-empty row of a CSV file
(blank lines, comments and non-URL entries are filtered out). -/
theorem load_urls_spec (fs : String → Option FileData) (path : String)
    (lines : List String) (rows : List (List String)) :
    (fs path = some (.text lines) →
      load_urls_from_file fs path = .ok ((lines.map pyStrip).filter isHttpUrl))
    ∧ (fs path = some (.csvRows rows) →
      load_urls_from_file fs path
        = .ok (((rows.filterMap List.head?).map pyStrip).filter isHttpUrl)) := by
  constructor
  · intro h
    simp [load_urls_from_file, h, textUrls_eq]
  · intro h
    simp [load_urls_from_file, h, csvUrls_eq]

/-- Witness for C1 on a concrete text file with a comment, a blank line and
one valid URL, and a concrete CSV file with mixed columns. -/
theorem load_urls_spec_witness :
    load_urls_from_file (fun _ => some (.text ["# comment", "", "  https://x.io "]))
      "urls.txt" = .ok ["https://x.io"]
    ∧ load_urls_from_file (fun _ => some (.csvRows [["https://a", "note"], [], ["nota", "https://b"]]))
      "urls.csv" = .ok ["https://a"] := by
  constructor
  · have h := (load_urls_spec (fun _ => some (.text ["# comment", "", "  https://x.io "]))
      "urls.txt" ["# comment", "", "  https://x.io "] []).1 rfl
    rw [h]
    rfl
  · have h := (load_urls_spec (fun _ => some (.csvRows [["https://a", "note"], [], ["nota", "https://b"]]))
      "urls.csv" [] [["https://a", "note"], [], ["nota", "https://b"]]).2 rfl
    rw [h]
    rfl

/-! ## C8 -/

/-- C8: for a path absent from the filesystem, `load_urls_from_file` raises
`FileNotFoundError` (returning no URLs), and `main` in file mode catches the
error and exits with code 1. -/
theorem load_missing_file (fs : String → Option FileData) (path : String)
    (cli : Cli) (cap : Nat → String → Bool)
    (hfs : fs path = none) (hurl : cli.url = none) (hfile : cli.file = some path) :
    load_urls_from_file fs path = .error .fileNotFound
    ∧ mainExitCode cli fs cap = 1 := by
  constructor
  · simp [load_urls_from_file, hfs]
  · simp [mainExitCode, loadedUrls, hurl, hfile, load_urls_from_file, hfs]

/-- Witness for C8 on an empty filesystem. -/
theorem load_missing_file_witness :
    load_urls_from_file (fun _ => none) "urls.txt" = .error .fileNotFound
    ∧ mainExitCode { file := some "urls.txt" } (fun _ => none) (fun _ _ => true) = 1 :=
  load_missing_file (fun _ => none) "urls.txt" { file := some "urls.txt" }
    (fun _ _ => true) rfl rfl rfl

/-! ## C4 -/

/-- C4: the exit code is 1 when loading fails or the loaded URL list is
empty; with exactly one URL it is 1 iff the capture fails and 0 iff it
succeeds; with two or more URLs it is 0 regardless of capture outcomes. -/
theorem main_exit_code_spec (cli : Cli) (fs : String → Option FileData)
    (cap : Nat → String → Bool) :
    ((∃ e, loadedUrls cli fs = .error e) → mainExitCode cli fs cap = 1)
    ∧ (loadedUrls cli fs = .ok [] → mainExitCode cli fs cap = 1)
    ∧ (∀ u, loadedUrls cli fs = .ok [u] →
        mainExitCode cli fs cap = if cap 1 u then 0 else 1)
    ∧ (∀ us, loadedUrls cli fs = .ok us → 2 ≤ us.length →
        mainExitCode cli fs cap = 0) := by
  refine ⟨?_, ?_, ?_, ?_⟩
  · rintro ⟨e, h⟩
    simp [mainExitCode, h]
  · intro h
    simp [mainExitCode, h]
  · intro u h
    simp [mainExitCode, h]
  · intro us h hlen
    rcases us with _ | ⟨u1, _ | ⟨u2, rest⟩⟩
    · simp at hlen
    · simp at hlen
    · simp [mainExitCode, h]

/-- Witness for C4: a single successful capture exits 0. -/
theorem main_exit_code_spec_witness :
    mainExitCode { url := some "http://a" } (fun _ => none) (fun _ _ => true) = 0 := by
  have h := (main_exit_code_spec { url := some "http://a" } (fun _ => none)
    (fun _ _ => true)).2.2.1 "http://a" rfl
  simpa using h

/-! ## C3 -/

theorem parseStoreTrue_true (b : Bool) : parseStoreTrue true b = true := by
  cases b <;> rfl

/-- C3: for every command line, the configuration has
`disable_animations = True` and `block_ads = True`: both flags are
`store_true` with default `True`, so no flag combination can turn them off. -/
theorem flags_always_on (cli : Cli) :
    (buildConfig cli).disable_animations = true
    ∧ (buildConfig cli).block_ads = true :=
  ⟨parseStoreTrue_true _, parseStoreTrue_true _⟩

/-! ## C10 -/

/-- C10: with format `png`, `output_quality` stays `None` even when
`--quality` is supplied; and the screenshot call carries a quality option iff
the format is `jpeg` and the configured quality is non-zero (`0` is falsy). -/
theorem quality_option_spec (cli : Cli) :
    (cli.format = "png" → (buildConfig cli).output_quality = none)
    ∧ (screenshotQualityOption (buildConfig cli)
        = if cli.format = "jpeg" ∧ cli.quality ≠ 0 then some cli.quality else none) := by
  constructor
  · intro h
    simp [buildConfig, h]
  · by_cases hf : cli.format = "jpeg"
    · by_cases hq : cli.quality = 0
      · simp [screenshotQualityOption, buildConfig, hf, hq]
      · simp [screenshotQualityOption, buildConfig, hf, hq]
    · simp [screenshotQualityOption, buildConfig, hf]

/-- Witness for C10: `--format png --quality 70` leaves the quality unset,
and `--format jpeg --quality 0` omits the quality option. -/
theorem quality_option_spec_witness :
    (buildConfig { format := "png", quality := 70 }).output_quality = none
    ∧ screenshotQualityOption (buildConfig { format := "jpeg", quality := 0 }) = none := by
  constructor
  · exact (quality_option_spec { format := "png", quality := 70 }).1 rfl
  · have h := (quality_option_spec { format := "jpeg", quality := 0 }).2
    simpa using h

/-! ## C5 -/

/-- C5: the request-interception handler is extensionally the simple policy:
abort iff the request URL contains a deny-listed domain, continue otherwise,
for every resource type (the resource-type branch never changes the
outcome). -/
theorem block_ads_handler_eq_policy (url resourceType : String) :
    block_ads_handler url resourceType = specAdPolicy url resourceType := by
  unfold block_ads_handler specAdPolicy
  cases h : urlIsBlocked url <;> simp [h]

/-! ## Dictionary and fold lemmas -/

theorem dictInsert_cons_hit (pk : String) (pv : Bool) (d : List (String × Bool))
    (k : String) (v : Bool) (h : pk = k) :
    dictInsert ((pk, pv) :: d) k v = (pk, v) :: d := by
  simp [dictInsert, h]

theorem dictInsert_cons_miss (pk : String) (pv : Bool) (d : List (String × Bool))
    (k : String) (v : Bool) (h : ¬pk = k) :
    dictInsert ((pk, pv) :: d) k v = (pk, pv) :: dictInsert d k v := by
  simp [dictInsert, h]

theorem keys_dictInsert (d : List (String × Bool)) (k : String) (v : Bool)
    (k' : String) :
    k' ∈ (dictInsert d k v).map Prod.fst ↔ k' = k ∨ k' ∈ d.map Prod.fst := by
  induction d with
  | nil => simp [dictInsert]
  | cons p d ih =>
    obtain ⟨pk, pv⟩ := p
    by_cases h : pk = k
    · subst h
      rw [dictInsert_cons_hit pk pv d pk v rfl]
      simp only [List.map_cons, List.mem_cons]
      tauto
    · rw [dictInsert_cons_miss pk pv d k v h]
      simp only [List.map_cons, List.mem_cons, ih]
      tauto

theorem nodup_keys_dictInsert (d : List (String × Bool)) (k : String) (v : Bool)
    (hd : (d.map Prod.fst).Nodup) : ((dictInsert d k v).map Prod.fst).Nodup := by
  induction d with
  | nil => simp [dictInsert]
  | cons p d ih =>
    obtain ⟨pk, pv⟩ := p
    simp only [List.map_cons, List.nodup_cons] at hd
    by_cases h : pk = k
    · subst h
      simpa [dictInsert] using hd
    · simp only [dictInsert, if_neg h, List.map_cons, List.nodup_cons]
      refine ⟨?_, ih hd.2⟩
      rw [keys_dictInsert]
      rintro (rfl | hmem)
      · exact h rfl
      · exact hd.1 hmem

theorem length_dictInsert (d : List (String × Bool)) (k : String) (v : Bool) :
    (dictInsert d k v).length ≤ d.length + 1 := by
  induction d with
  | nil => simp [dictInsert]
  | cons p d ih =>
    obtain ⟨pk, pv⟩ := p
    by_cases h : pk = k
    · simp [dictInsert, h]
    · simp only [dictInsert, if_neg h, List.length_cons]
      omega

theorem dictLookup_insert_self (d : List (String × Bool)) (k : String) (v : Bool) :
    dictLookup (dictInsert d k v) k = some v := by
  induction d with
  | nil => simp [dictInsert, dictLookup]
  | cons p d ih =>
    obtain ⟨pk, pv⟩ := p
    by_cases h : pk = k
    · subst h
      simp [dictInsert, dictLookup]
    · simpa [dictInsert, dictLookup, h] using ih

theorem dictLookup_insert_ne (d : List (String × Bool)) (k k' : String) (v : Bool)
    (h : k ≠ k') : dictLookup (dictInsert d k v) k' = dictLookup d k' := by
  induction d with
  | nil => simp [dictInsert, dictLookup, h]
  | cons p d ih =>
    obtain ⟨pk, pv⟩ := p
    by_cases hpk : pk = k
    · subst hpk
      simp [dictInsert, dictLookup, h]
    · by_cases hpk' : pk = k'
      · subst hpk'
        simp [dictInsert, hpk, dictLookup]
      · simpa [dictInsert, dictLookup, hpk, hpk'] using ih

theorem dictInsert_not_mem (d : List (String × Bool)) (k : String) (v : Bool)
    (h : k ∉ d.map Prod.fst) : dictInsert d k v = d ++ [(k, v)] := by
  induction d with
  | nil => rfl
  | cons p d ih =>
    obtain ⟨pk, pv⟩ := p
    simp only [List.map_cons, List.mem_cons] at h
    push_neg at h
    simp [dictInsert, Ne.symm h.1, ih h.2]

theorem keys_batch_foldl (cap : Nat → String → Bool) (ps : List (Nat × String))
    (d : List (String × Bool)) (k : String) :
    k ∈ ((ps.foldl (fun d p => dictInsert d p.2 (cap p.1 p.2)) d).map Prod.fst)
      ↔ k ∈ d.map Prod.fst ∨ k ∈ ps.map Prod.snd := by
  induction ps generalizing d with
  | nil => simp
  | cons p rest ih =>
    simp only [List.foldl_cons, List.map_cons, List.mem_cons]
    rw [ih, keys_dictInsert]
    tauto

theorem nodup_keys_batch_foldl (cap : Nat → String → Bool)
    (ps : List (Nat × String)) (d : List (String × Bool))
    (hd : (d.map Prod.fst).Nodup) :
    (((ps.foldl (fun d p => dictInsert d p.2 (cap p.1 p.2)) d)).map Prod.fst).Nodup := by
  induction ps generalizing d with
  | nil => simpa
  | cons p rest ih => exact ih _ (nodup_keys_dictInsert _ _ _ hd)

theorem length_batch_foldl (cap : Nat → String → Bool)
    (ps : List (Nat × String)) (d : List (String × Bool)) :
    (ps.foldl (fun d p => dictInsert d p.2 (cap p.1 p.2)) d).length
      ≤ d.length + ps.length := by
  induction ps generalizing d with
  | nil => simp
  | cons p rest ih =>
    have h1 := ih (dictInsert d p.2 (cap p.1 p.2))
    have h2 := length_dictInsert d p.2 (cap p.1 p.2)
    simp only [List.foldl_cons, List.length_cons]
    omega

theorem dictLookup_batch_foldl (cap : Nat → String → Bool)
    (ps : List (Nat × String)) (d : List (String × Bool)) (k : String) :
    dictLookup (ps.foldl (fun d p => dictInsert d p.2 (cap p.1 p.2)) d) k
      = ((ps.reverse.find? (fun p => p.2 == k)).map
          (fun p => cap p.1 p.2)).or (dictLookup d k) := by
  induction ps generalizing d with
  | nil => simp
  | cons p rest ih =>
    obtain ⟨i, u⟩ := p
    simp only [List.foldl_cons, List.reverse_cons, List.find?_append]
    rw [ih]
    cases hfind : rest.reverse.find? (fun p => p.2 == k) with
    | some q => simp [hfind, Option.or]
    | none =>
      simp only [hfind, Option.map_none', Option.none_or, Option.or_assoc]
      by_cases hu : u = k
      · subst hu
        simp [List.find?, dictLookup_insert_self]
      · have hbeq : (u == k) = false := beq_eq_false_iff_ne.mpr hu
        simp [List.find?, hbeq, dictLookup_insert_ne _ _ _ _ hu]

theorem enumFrom_map_snd (i : Nat) (us : List String) :
    (enumFrom i us).map Prod.snd = us := by
  induction us generalizing i with
  | nil => rfl
  | cons u rest ih => simp [enumFrom, ih]

theorem enumFrom_length (i : Nat) (us : List String) :
    (enumFrom i us).length = us.length := by
  induction us generalizing i with
  | nil => rfl
  | cons u rest ih => simp [enumFrom, ih]

theorem batch_foldl_eq_map (cap : Nat → String → Bool) :
    ∀ (us : List String), us.Nodup →
      ∀ (i : Nat) (d : List (String × Bool)), (∀ u ∈ us, u ∉ d.map Prod.fst) →
        (enumFrom i us).foldl (fun d p => dictInsert d p.2 (cap p.1 p.2)) d
          = d ++ (enumFrom i us).map (fun p => (p.2, cap p.1 p.2)) := by
  intro us
  induction us with
  | nil =>
    intro _ i d _
    simp [enumFrom]
  | cons u rest ih =>
    intro hnd i d hdisj
    rcases List.nodup_cons.mp hnd with ⟨hu, hrest⟩
    simp only [enumFrom, List.foldl_cons, List.map_cons]
    rw [dictInsert_not_mem d u _ (hdisj u (List.mem_cons_self _ _))]
    rw [ih hrest (i + 1) (d ++ [(u, cap i u)]) ?_]
    · simp
    · intro x hx
      simp only [List.map_append, List.mem_append, List.map_cons, List.map_nil,
        List.mem_singleton]
      rintro (h1 | h2)
      · exact hdisj x (List.mem_cons_of_mem _ hx) h1
      · subst h2
        exact hu hx

theorem batchResults_eq_map (cap : Nat → String → Bool) (urls : List String)
    (hnd : urls.Nodup) :
    batchResults cap urls
      = (enumFrom 1 urls).map (fun p => (p.2, cap p.1 p.2)) := by
  have h := batch_foldl_eq_map cap urls hnd 1 [] (by simp)
  simpa [batchResults] using h

theorem count_true_map {α : Type} (c : α → Bool) (l : List α) :
    (l.map c).count true = l.length - (l.filter (fun x => !(c x))).length := by
  induction l with
  | nil => rfl
  | cons x xs ih =>
    have hle := List.length_filter_le (fun x => !(c x)) xs
    cases hx : c x <;> simp [List.count_cons, hx, ih] <;> omega

/-! ## C2 -/

/-- C2 counterexample: for the input list `["http://a", "http://a"]` (N = 2)
where the first capture fails and the second succeeds (K = 1), the claim
predicts a summary of successful = 1 out of 2 with failed list
`["http://a"]`; the code's `results` dict collapses the duplicate, so the
summary reads 1 out of 1 with no failed URLs. -/
theorem batch_summary_claim_counterexample :
    ¬ (summarySuccessful (batchResults (fun i _ => decide (i = 2)) ["http://a", "http://a"]) = 1
       ∧ summaryTotal (batchResults (fun i _ => decide (i = 2)) ["http://a", "http://a"]) = 2
       ∧ failedUrls (batchResults (fun i _ => decide (i = 2)) ["http://a", "http://a"])
           = ["http://a"]) := by
  decide

/-- C2 (amended): for a duplicate-free list of N input URLs of which K
captures fail, the final summary reports successful = N − K out of total = N
and lists exactly the K failed URLs in input order.  (The original claim
fails when the input contains duplicate URLs: the results dict then collapses
them, see the counterexample.) -/
theorem batch_summary_spec (cap : Nat → String → Bool) (urls : List String)
    (hnd : urls.Nodup) :
    summarySuccessful (batchResults cap urls)
        = urls.length - ((enumFrom 1 urls).filter (fun p => !(cap p.1 p.2))).length
    ∧ summaryTotal (batchResults cap urls) = urls.length
    ∧ failedUrls (batchResults cap urls)
        = ((enumFrom 1 urls).filter (fun p => !(cap p.1 p.2))).map Prod.snd := by
  have hb := batchResults_eq_map cap urls hnd
  refine ⟨?_, ?_, ?_⟩
  · rw [hb, summarySuccessful, List.map_map]
    have hc : (Prod.snd ∘ fun p : Nat × String => (p.2, cap p.1 p.2))
        = fun p : Nat × String => cap p.1 p.2 := rfl
    rw [hc, count_true_map, enumFrom_length]
  · rw [hb, summaryTotal, List.length_map, enumFrom_length]
  · rw [hb, failedUrls, List.filter_map, List.map_map]
    rfl

/-- Witness for C2 (amended) on two distinct URLs with one failure. -/
theorem batch_summary_spec_witness :
    summaryTotal (batchResults (fun i _ => decide (i = 2)) ["http://a", "http://b"]) = 2
    ∧ failedUrls (batchResults (fun i _ => decide (i = 2)) ["http://a", "http://b"])
        = ["http://a"] := by
  have h := batch_summary_spec (fun i _ => decide (i = 2)) ["http://a", "http://b"]
    (by decide)
  exact ⟨h.2.1, h.2.2⟩

/-! ## C9 -/

/-- C9: the key list of the map `batch_capture` returns is duplicate-free and
holds exactly the distinct input URLs; each key's value is the outcome of the
last capture of that URL; the map never has more entries than the input list,
and a duplicated input yields strictly fewer (concrete instance: two copies
of one URL give a one-entry map). -/
theorem batch_results_keys (cap : Nat → String → Bool) (urls : List String) :
    ((batchResults cap urls).map Prod.fst).Nodup
    ∧ (∀ u, u ∈ (batchResults cap urls).map Prod.fst ↔ u ∈ urls)
    ∧ (∀ u, dictLookup (batchResults cap urls) u
        = ((enumFrom 1 urls).reverse.find? (fun p => p.2 == u)).map
            (fun p => cap p.1 p.2))
    ∧ (batchResults cap urls).length ≤ urls.length
    ∧ (batchResults (fun _ _ => true) ["http://a", "http://a"]).length = 1 := by
  refine ⟨?_, ?_, ?_, ?_, by decide⟩
  · exact nodup_keys_batch_foldl cap (enumFrom 1 urls) [] (by simp)
  · intro u
    rw [batchResults, keys_batch_foldl, enumFrom_map_snd]
    simp
  · intro u
    rw [batchResults, dictLookup_batch_foldl]
    simp [dictLookup]
  · have h := length_batch_foldl cap (enumFrom 1 urls) []
    rw [batchResults]
    simpa [enumFrom_length] using h

/-! ## C6 -/

/-- C6: `capture_screenshot` returns a boolean — `True` exactly when every
step of its body succeeded, `False` exactly when some step raised — and never
propagates an exception; hence in batch mode every input URL is attempted and
appears in the results, whatever the other captures did. -/
theorem capture_exception_containment (config : ScreenshotConfig)
    (env : Step → Except CaptureError Unit) (cap : Nat → String → Bool)
    (urls : List String) :
    (capture_screenshot config env = true ↔ captureBody config env = .ok ())
    ∧ (capture_screenshot config env = false ↔ ∃ e, captureBody config env = .error e)
    ∧ (∀ u, u ∈ urls → u ∈ (batchResults cap urls).map Prod.fst) := by
  refine ⟨?_, ?_, ?_⟩
  · cases h : captureBody config env with
    | ok a =>
      cases a
      simp [capture_screenshot, h]
    | error e => simp [capture_screenshot, h]
  · cases h : captureBody config env with
    | ok a =>
      cases a
      simp [capture_screenshot, h]
    | error e => simp [capture_screenshot, h]
  · intro u hu
    rw [batchResults, keys_batch_foldl, enumFrom_map_snd]
    exact Or.inr hu

/-- Witness for C6: a URL whose capture fails still gets a results entry. -/
theorem capture_exception_containment_witness :
    "http://a" ∈ (batchResults (fun _ _ => false) ["http://a", "http://b"]).map Prod.fst :=
  (capture_exception_containment {} (fun _ => .ok ()) (fun _ _ => false)
    ["http://a", "http://b"]).2.2 "http://a" (by decide)

/-! ## C7 -/

theorem not_mem_pyReplaceList_single (c : Char) (rep : List Char) (hc : c ∉ rep) :
    ∀ s : List Char, c ∉ pyReplaceList s [c] rep := by
  intro s
  induction s with
  | nil =>
    rw [pyReplaceList]
    simp
  | cons a as ih =>
    rw [pyReplaceList]
    simp only [reduceCtorEq, dite_false]
    by_cases h : a = c
    · subst h
      have hpre : List.isPrefixOf [a] (a :: as) = true := by simp [List.isPrefixOf]
      rw [if_pos hpre]
      simp only [List.drop_succ_cons, List.drop_zero, List.mem_append]
      rintro (h1 | h2)
      · exact hc h1
      · exact ih h2
    · have hpre : List.isPrefixOf [c] (a :: as) = false := by
        simp [List.isPrefixOf]
        exact fun hh => absurd hh.symm h
      rw [if_neg (by simp [hpre])]
      simp only [List.mem_cons]
      rintro (h1 | h2)
      · exact h h1.symm
      · exact ih h2

theorem ensureExt_suffix (filename fmt : String) :
    ("." ++ fmt).data <:+ (ensureExt filename fmt).data := by
  unfold ensureExt
  cases h : pyEndsWith filename ("." ++ fmt) with
  | true =>
    simp only [h, Bool.not_true, Bool.false_eq_true, if_false]
    exact List.isSuffixOf_iff_suffix.mp h
  | false =>
    simp only [h, Bool.not_false, if_true]
    rw [String.data_append, String.data_append, String.data_append,
      List.append_assoc]
    exact List.suffix_append _ _

/-- C7: for every URL's network location, the domain part of the default
`{domain}_{timestamp}` filename contains no literal dot (`www.` is removed
and every remaining dot of the netloc becomes an underscore), and the
filename ends with `.png` or `.jpeg` matching the configured format. -/
theorem default_filename_spec (netloc ts fmt : String)
    (hfmt : fmt = "png" ∨ fmt = "jpeg") :
    '.' ∉ (sanitizeDomain netloc).data
    ∧ ("." ++ fmt).data <:+ (defaultFilename netloc ts fmt).data := by
  refine ⟨?_, ensureExt_suffix _ _⟩
  have h : (sanitizeDomain netloc).data
      = pyReplaceList (pyReplace netloc "www." "").data ['.'] ['_'] := rfl
  rw [h]
  exact not_mem_pyReplaceList_single '.' ['_'] (by decide) _

/-- Witness for C7 on `www.example.com` with format `png`. -/
theorem default_filename_spec_witness :
    '.' ∉ (sanitizeDomain "www.example.com").data
    ∧ ("." ++ "png").data <:+ (defaultFilename "www.example.com" "20260101_000000" "png").data :=
  default_filename_spec "www.example.com" "20260101_000000" "png" (Or.inl rfl)

end Screeny
